import Mathlib

/-!
Verification of the `file_dir` Ansible module
(`roles/server/library/file_dir.py`): a declarative filesystem-state
reconciler.  The filesystem is modelled as a finite tree of named entries;
paths are lists of segments.  The POSIX primitives consumed by the module
(`Path.mkdir`, `Path.touch`, `Path.unlink(missing_ok=True)`,
`shutil.rmtree`) are modelled as total functions on this tree returning
`Except Unit` (an `error` is the `OSError` the module catches).  The module
operations `ensure_file`, `ensure_directory`, `ensure_absent` and the
dispatcher `run_proper_handler` are translated statement by statement from
the source; `module.fail_json` (which aborts the call) is the `fatal`
outcome, carrying the filesystem as it stands at the abort.
-/

set_option autoImplicit false

namespace FileDir

/-- An on-disk entry: a regular file, or a directory with named children. -/
inductive Entry where
  | file : Entry
  | dir (children : List (String × Entry)) : Entry
deriving Repr

/-- The `State` enumeration of the module: `FILE`, `DIRECTORY`, `ABSENT`. -/
inductive State where
  | FILE
  | DIRECTORY
  | ABSENT
deriving DecidableEq, Repr

/-- `State.value`: the string value of each enum member. -/
def State.value : State → String
  | .FILE => "file"
  | .DIRECTORY => "directory"
  | .ABSENT => "absent"

/-- Look a name up among the children of a directory. -/
def findChild : List (String × Entry) → String → Option Entry
  | [], _ => none
  | (k, v) :: rest, s => if k = s then some v else findChild rest s

/-- Replace (or append) the binding of a name among directory children. -/
def setChild : List (String × Entry) → String → Entry → List (String × Entry)
  | [], s, e => [(s, e)]
  | (k, v) :: rest, s, e =>
    if k = s then (k, e) :: rest else (k, v) :: setChild rest s e

/-- Remove every binding of a name among directory children. -/
def eraseChild : List (String × Entry) → String → List (String × Entry)
  | [], _ => []
  | (k, v) :: rest, s =>
    if k = s then eraseChild rest s else (k, v) :: eraseChild rest s

/-- Resolve a path (list of segments) against an entry. -/
def Entry.lookup : Entry → List String → Option Entry
  | e, [] => some e
  | .file, _ :: _ => none
  | .dir cs, s :: rest =>
    match findChild cs s with
    | none => none
    | some e => Entry.lookup e rest

/-- `Entry.isFile e` is true exactly when `e` is a regular file. -/
def Entry.isFile : Entry → Bool
  | .file => true
  | .dir _ => false

/-- Model of `pathlib.Path.mkdir(parents=..., exist_ok=...)`.
`error` stands for the `OSError` raised on: traversal through a regular
file, a missing parent with `parents=False`, or an existing non-directory
target (a file target raises even with `exist_ok=True`). -/
def Entry.mkdir : Entry → List String → Bool → Bool → Except Unit Entry
  | .file, _, _, _ => .error ()
  | .dir cs, [], _, exist_ok =>
    if exist_ok then .ok (.dir cs) else .error ()
  | .dir cs, s :: rest, parents, exist_ok =>
    match findChild cs s with
    | some e =>
      match Entry.mkdir e rest parents exist_ok with
      | .ok e2 => .ok (.dir (setChild cs s e2))
      | .error u => .error u
    | none =>
      match rest with
      | [] => .ok (.dir (setChild cs s (.dir [])))
      | _ :: _ =>
        if parents then
          match Entry.mkdir (.dir []) rest parents exist_ok with
          | .ok e2 => .ok (.dir (setChild cs s e2))
          | .error u => .error u
        else .error ()

/-- Model of `pathlib.Path.touch()` (default `exist_ok=True`): create an
empty file; an existing entry (file or directory) only has its times
updated; a missing parent is an `OSError`. -/
def Entry.touch : Entry → List String → Except Unit Entry
  | e, [] => .ok e
  | .file, _ :: _ => .error ()
  | .dir cs, [s] =>
    match findChild cs s with
    | some _ => .ok (.dir cs)
    | none => .ok (.dir (setChild cs s .file))
  | .dir cs, s :: b :: q2 =>
    match findChild cs s with
    | some e =>
      match Entry.touch e (b :: q2) with
      | .ok e2 => .ok (.dir (setChild cs s e2))
      | .error u => .error u
    | none => .error ()

/-- Model of `pathlib.Path.unlink(missing_ok=True)`: remove a regular
file; a missing target (or missing parent) is silently accepted; a
directory target, or traversal through a file, is an `OSError`. -/
def Entry.unlink : Entry → List String → Except Unit Entry
  | _, [] => .error ()
  | .file, _ :: _ => .error ()
  | .dir cs, [s] =>
    match findChild cs s with
    | some .file => .ok (.dir (eraseChild cs s))
    | some (.dir _) => .error ()
    | none => .ok (.dir cs)
  | .dir cs, s :: b :: q2 =>
    match findChild cs s with
    | some e =>
      match Entry.unlink e (b :: q2) with
      | .ok e2 => .ok (.dir (setChild cs s e2))
      | .error u => .error u
    | none => .ok (.dir cs)

/-- Model of `shutil.rmtree(path, ignore_errors=False)`: remove a
directory tree; a missing or non-directory target is an error. -/
def Entry.rmtree : Entry → List String → Except Unit Entry
  | _, [] => .error ()
  | .file, _ :: _ => .error ()
  | .dir cs, [s] =>
    match findChild cs s with
    | some (.dir _) => .ok (.dir (eraseChild cs s))
    | some .file => .error ()
    | none => .error ()
  | .dir cs, s :: b :: q2 =>
    match findChild cs s with
    | some e =>
      match Entry.rmtree e (b :: q2) with
      | .ok e2 => .ok (.dir (setChild cs s e2))
      | .error u => .error u
    | none => .error ()

/-- `get_current_state` (the State Inspector): classify a path as
`DIRECTORY`, `FILE` or `ABSENT`. -/
def get_current_state (fs : Entry) (path : List String) : State :=
  match Entry.lookup fs path with
  | none => State.ABSENT
  | some (.dir _) => State.DIRECTORY
  | some .file => State.FILE

/-- One side of a diff: the `path` key is always present, the `state` key
only sometimes. -/
structure DiffSide where
  path : List String
  state : Option String
deriving DecidableEq, Repr

/-- The before/after diff structure returned by the module. -/
structure Diff where
  before : DiffSide
  after : DiffSide
deriving DecidableEq, Repr

/-- `init_diff(path, next_state, current_state)`: both sides carry the
path; the `state` fields are added only when the states differ. -/
def init_diff (path : List String) (next_state current_state : State) :
    Diff :=
  if current_state ≠ next_state then
    { before := ⟨path, some current_state.value⟩,
      after := ⟨path, some next_state.value⟩ }
  else
    { before := ⟨path, none⟩, after := ⟨path, none⟩ }

/-- The result dictionary of one call: `changed` plus the optional `path`
and `diff` keys (the dispatcher's default result has only `changed`). -/
structure ModResult where
  changed : Bool
  path : Option (List String)
  diff : Option Diff
deriving DecidableEq, Repr

/-- `get_check_mode_result(diff, path)`: the early-returned check-mode
result, unconditionally `changed=True`. -/
def get_check_mode_result (diff : Diff) (path : List String) : ModResult :=
  ⟨true, some path, some diff⟩

/-- Outcome of one module call: a returned result together with the
resulting filesystem, or a `fail_json` abort (message plus the filesystem
as it stands at the abort). -/
inductive Outcome where
  | ok (result : ModResult) (fs : Entry)
  | fatal (msg : String) (fs : Entry)

/-- The filesystem component of an outcome: the filesystem as it stands
after the call, whether the call returned a result or aborted. -/
def Outcome.fsAfter : Outcome → Entry
  | .ok _ fs => fs
  | .fatal _ fs => fs

/-- Render a path for failure messages. -/
def pathStr (p : List String) : String := String.intercalate "/" p

/-- `ensure_file(path, nested, module)`: translated from the source.
When the path is absent, the parent is created with
`mkdir(parents=nested, exist_ok=True)` and the file touched; an existing
directory at the path is fatal; an existing file is converged. -/
def ensure_file (fs : Entry) (path : List String) (nested : Bool)
    (check_mode : Bool) : Outcome :=
  let current_state := get_current_state fs path
  let diff := init_diff path State.FILE current_state
  if current_state = State.ABSENT then
    if check_mode then .ok (get_check_mode_result diff path) fs
    else
      match Entry.mkdir fs path.dropLast nested true with
      | .error _ =>
        .fatal ("Error, could not create file: " ++ pathStr path ++
          ", error: OSError.") fs
      | .ok fs2 =>
        match Entry.touch fs2 path with
        | .error _ =>
          .fatal ("Error, could not create file: " ++ pathStr path ++
            ", error: OSError.") fs2
        | .ok fs3 => .ok ⟨true, some path, some diff⟩ fs3
  else if current_state = State.DIRECTORY then
    .fatal ("Error, could not create file: " ++ pathStr path ++
      ", path is directory.") fs
  else .ok ⟨false, some path, some diff⟩ fs

/-- `ensure_directory(path, nested, module)`: translated from the source.
Only the absent case mutates, via `mkdir(parents=nested, exist_ok=True)`
on the path itself; any other current state returns `changed=False`. -/
def ensure_directory (fs : Entry) (path : List String) (nested : Bool)
    (check_mode : Bool) : Outcome :=
  let current_state := get_current_state fs path
  let diff := init_diff path State.DIRECTORY current_state
  if current_state = State.ABSENT then
    if check_mode then .ok (get_check_mode_result diff path) fs
    else
      match Entry.mkdir fs path nested true with
      | .error _ =>
        .fatal ("Error, could not create directory: " ++ pathStr path ++
          ", error: OSError.") fs
      | .ok fs2 => .ok ⟨true, some path, some diff⟩ fs2
  else .ok ⟨false, some path, some diff⟩ fs

/-- `ensure_absent(path, module)`: translated from the source.  A
directory is removed with `rmtree`, a file with
`unlink(missing_ok=True)`; an absent path is converged. -/
def ensure_absent (fs : Entry) (path : List String) (check_mode : Bool) :
    Outcome :=
  let current_state := get_current_state fs path
  let diff := init_diff path State.ABSENT current_state
  if current_state = State.DIRECTORY then
    if check_mode then .ok (get_check_mode_result diff path) fs
    else
      match Entry.rmtree fs path with
      | .error _ =>
        .fatal ("Error, could not delete directory: " ++ pathStr path ++
          ", error: OSError") fs
      | .ok fs2 => .ok ⟨true, some path, some diff⟩ fs2
  else if current_state = State.FILE then
    if check_mode then .ok (get_check_mode_result diff path) fs
    else
      match Entry.unlink fs path with
      | .error _ =>
        .fatal ("Error, could not delete file: " ++ pathStr path ++
          ", error: OSError") fs
      | .ok fs2 => .ok ⟨true, some path, some diff⟩ fs2
  else .ok ⟨false, some path, some diff⟩ fs

/-- `run_proper_handler(module)` (the Dispatcher): route on the `state`
string to the matching operation; any unmatched string yields the default
`dict(changed=False)` result. -/
def run_proper_handler (fs : Entry) (state : String) (path : List String)
    (nested : Bool) (check_mode : Bool) : Outcome :=
  if state = State.FILE.value then ensure_file fs path nested check_mode
  else if state = State.DIRECTORY.value then
    ensure_directory fs path nested check_mode
  else if state = State.ABSENT.value then
    ensure_absent fs path check_mode
  else .ok ⟨false, none, none⟩ fs

/-! ### Basic lemmas about the filesystem model -/

theorem findChild_setChild_self (cs : List (String × Entry)) (s : String)
    (e : Entry) : findChild (setChild cs s e) s = some e := by
  induction cs with
  | nil => simp [setChild, findChild]
  | cons kv rest ih =>
    obtain ⟨k, v⟩ := kv
    by_cases h : k = s
    · simp [setChild, findChild, h]
    · simp [setChild, findChild, h, ih]

theorem findChild_eraseChild_self (cs : List (String × Entry)) (s : String) :
    findChild (eraseChild cs s) s = none := by
  induction cs with
  | nil => simp [eraseChild, findChild]
  | cons kv rest ih =>
    obtain ⟨k, v⟩ := kv
    by_cases h : k = s <;> simp [eraseChild, findChild, h, ih]

theorem findChild_nil (s : String) : findChild [] s = none := rfl

theorem Entry.lookup_append (e : Entry) (q r : List String) :
    Entry.lookup e (q ++ r) =
      (Entry.lookup e q).bind (fun e2 => Entry.lookup e2 r) := by
  induction q generalizing e with
  | nil => simp [Entry.lookup]
  | cons s rest ih =>
    cases e with
    | file => simp [Entry.lookup]
    | dir cs =>
      simp only [List.cons_append, Entry.lookup]
      cases findChild cs s with
      | none => simp
      | some e0 => simp [ih]

theorem get_current_state_eq_absent (fs : Entry) (p : List String) :
    get_current_state fs p = State.ABSENT ↔ Entry.lookup fs p = none := by
  unfold get_current_state
  cases h : Entry.lookup fs p with
  | none => simp
  | some e => cases e <;> simp

theorem get_current_state_eq_file (fs : Entry) (p : List String) :
    get_current_state fs p = State.FILE ↔
      Entry.lookup fs p = some Entry.file := by
  unfold get_current_state
  cases h : Entry.lookup fs p with
  | none => simp
  | some e => cases e <;> simp

theorem get_current_state_eq_dir (fs : Entry) (p : List String) :
    get_current_state fs p = State.DIRECTORY ↔
      ∃ cs, Entry.lookup fs p = some (Entry.dir cs) := by
  unfold get_current_state
  cases h : Entry.lookup fs p with
  | none => simp
  | some e => cases e <;> simp

/-! ### Effects of the modelled POSIX primitives -/

/-- A successful `mkdir` (with `exist_ok=True`) leaves a directory at its
target path. -/
theorem Entry.mkdir_ok_dir (q : List String) :
    ∀ (e e2 : Entry) (parents : Bool),
      Entry.mkdir e q parents true = .ok e2 →
      ∃ cs, Entry.lookup e2 q = some (Entry.dir cs) := by
  induction q with
  | nil =>
    intro e e2 parents hmk
    cases e with
    | file => simp [Entry.mkdir] at hmk
    | dir cs =>
      simp only [Entry.mkdir, if_pos] at hmk
      simp only [Except.ok.injEq] at hmk
      subst hmk
      exact ⟨cs, rfl⟩
  | cons a q' ih =>
    intro e e2 parents hmk
    cases e with
    | file => simp [Entry.mkdir] at hmk
    | dir cs =>
      simp only [Entry.mkdir] at hmk
      split at hmk
      next e0 hf =>
        split at hmk
        next e0' hm0 =>
          simp only [Except.ok.injEq] at hmk
          subst hmk
          obtain ⟨cs2, hcs2⟩ := ih e0 e0' parents hm0
          exact ⟨cs2, by simp [Entry.lookup, findChild_setChild_self, hcs2]⟩
        next u hm0 => simp at hmk
      next hf =>
        split at hmk
        next =>
          simp only [Except.ok.injEq] at hmk
          subst hmk
          exact ⟨[], by simp [Entry.lookup, findChild_setChild_self]⟩
        next b q2 =>
          split at hmk
          next hp =>
            split at hmk
            next e0' hm0 =>
              simp only [Except.ok.injEq] at hmk
              subst hmk
              obtain ⟨cs2, hcs2⟩ := ih (Entry.dir []) e0' parents hm0
              exact ⟨cs2, by simp [Entry.lookup, findChild_setChild_self, hcs2]⟩
            next u hm0 => simp at hmk
          next hp => simp at hmk

/-- A successful `mkdir` never creates an entry strictly below its target
path: a child of the target that was absent before is still absent. -/
theorem Entry.mkdir_preserves_missing_child (q : List String) :
    ∀ (e e2 : Entry) (s : String) (parents : Bool),
      Entry.mkdir e q parents true = .ok e2 →
      Entry.lookup e (q ++ [s]) = none →
      Entry.lookup e2 (q ++ [s]) = none := by
  induction q with
  | nil =>
    intro e e2 s parents hmk hlk
    cases e with
    | file => simp [Entry.mkdir] at hmk
    | dir cs =>
      simp only [Entry.mkdir, if_pos, Except.ok.injEq] at hmk
      subst hmk
      exact hlk
  | cons a q' ih =>
    intro e e2 s parents hmk hlk
    cases e with
    | file => simp [Entry.mkdir] at hmk
    | dir cs =>
      simp only [Entry.mkdir] at hmk
      split at hmk
      next e0 hf =>
        split at hmk
        next e0' hm0 =>
          simp only [Except.ok.injEq] at hmk
          subst hmk
          have hlk0 : Entry.lookup e0 (q' ++ [s]) = none := by
            simpa [Entry.lookup, hf] using hlk
          have hres := ih e0 e0' s parents hm0 hlk0
          simpa [Entry.lookup, findChild_setChild_self] using hres
        next u hm0 => simp at hmk
      next hf =>
        split at hmk
        next =>
          simp only [Except.ok.injEq] at hmk
          subst hmk
          simp [Entry.lookup, findChild_setChild_self, findChild]
        next b q2 =>
          split at hmk
          next hp =>
            split at hmk
            next e0' hm0 =>
              simp only [Except.ok.injEq] at hmk
              subst hmk
              have hlk0 : Entry.lookup (Entry.dir []) ((b :: q2) ++ [s]) = none := by
                simp [Entry.lookup, findChild]
              have hres := ih (Entry.dir []) e0' s parents hm0 hlk0
              simpa [Entry.lookup, findChild_setChild_self] using hres
            next u hm0 => simp at hmk
          next hp => simp at hmk

/-- A successful `touch` of a previously absent path leaves a regular
file there. -/
theorem Entry.touch_missing (p : List String) :
    ∀ (e e2 : Entry), Entry.lookup e p = none → Entry.touch e p = .ok e2 →
      Entry.lookup e2 p = some Entry.file := by
  induction p with
  | nil => intro e e2 hlk _; simp [Entry.lookup] at hlk
  | cons a rest ih =>
    intro e e2 hlk ht
    cases e with
    | file => simp [Entry.touch] at ht
    | dir cs =>
      cases rest with
      | nil =>
        cases hf : findChild cs a with
        | some e0 => simp [Entry.lookup, hf] at hlk
        | none =>
          simp only [Entry.touch, hf, Except.ok.injEq] at ht
          subst ht
          simp [Entry.lookup, findChild_setChild_self]
      | cons b q2 =>
        cases hf : findChild cs a with
        | none => simp [Entry.touch, hf] at ht
        | some e0 =>
          simp only [Entry.touch, hf] at ht
          cases ht0 : Entry.touch e0 (b :: q2) with
          | error u => simp [ht0] at ht
          | ok e0' =>
            simp only [ht0, Except.ok.injEq] at ht
            subst ht
            have hlk0 : Entry.lookup e0 (b :: q2) = none := by
              simpa [Entry.lookup, hf] using hlk
            have hres := ih e0 e0' hlk0 ht0
            simpa [Entry.lookup, findChild_setChild_self] using hres

/-- A successful `rmtree` leaves its target path absent. -/
theorem Entry.rmtree_removes (p : List String) :
    ∀ (e e2 : Entry), Entry.rmtree e p = .ok e2 →
      Entry.lookup e2 p = none := by
  induction p with
  | nil => intro e e2 hr; cases e <;> simp [Entry.rmtree] at hr
  | cons a rest ih =>
    intro e e2 hr
    cases e with
    | file => simp [Entry.rmtree] at hr
    | dir cs =>
      cases rest with
      | nil =>
        cases hf : findChild cs a with
        | none => simp [Entry.rmtree, hf] at hr
        | some e0 =>
          cases e0 with
          | file => simp [Entry.rmtree, hf] at hr
          | dir cs0 =>
            simp only [Entry.rmtree, hf, Except.ok.injEq] at hr
            subst hr
            simp [Entry.lookup, findChild_eraseChild_self]
      | cons b q2 =>
        cases hf : findChild cs a with
        | none => simp [Entry.rmtree, hf] at hr
        | some e0 =>
          simp only [Entry.rmtree, hf] at hr
          cases hr0 : Entry.rmtree e0 (b :: q2) with
          | error u => simp [hr0] at hr
          | ok e0' =>
            simp only [hr0, Except.ok.injEq] at hr
            subst hr
            have hres := ih e0 e0' hr0
            simpa [Entry.lookup, findChild_setChild_self] using hres

/-- A successful `unlink` (with `missing_ok=True`) leaves its target path
absent. -/
theorem Entry.unlink_removes (p : List String) :
    ∀ (e e2 : Entry), Entry.unlink e p = .ok e2 →
      Entry.lookup e2 p = none := by
  induction p with
  | nil => intro e e2 hr; cases e <;> simp [Entry.unlink] at hr
  | cons a rest ih =>
    intro e e2 hr
    cases e with
    | file => simp [Entry.unlink] at hr
    | dir cs =>
      cases rest with
      | nil =>
        cases hf : findChild cs a with
        | none =>
          simp only [Entry.unlink, hf, Except.ok.injEq] at hr
          subst hr
          simp [Entry.lookup, hf]
        | some e0 =>
          cases e0 with
          | dir cs0 => simp [Entry.unlink, hf] at hr
          | file =>
            simp only [Entry.unlink, hf, Except.ok.injEq] at hr
            subst hr
            simp [Entry.lookup, findChild_eraseChild_self]
      | cons b q2 =>
        cases hf : findChild cs a with
        | none =>
          simp only [Entry.unlink, hf, Except.ok.injEq] at hr
          subst hr
          simp [Entry.lookup, hf]
        | some e0 =>
          simp only [Entry.unlink, hf] at hr
          cases hr0 : Entry.unlink e0 (b :: q2) with
          | error u => simp [hr0] at hr
          | ok e0' =>
            simp only [hr0, Except.ok.injEq] at hr
            subst hr
            have hres := ih e0 e0' hr0
            simpa [Entry.lookup, findChild_setChild_self] using hres

/-- `mkdir(parents=False)` fails whenever the parent of its target path is
absent. -/
theorem Entry.mkdir_no_parents_error (p : List String) :
    ∀ (e : Entry), p ≠ [] → Entry.lookup e p.dropLast = none →
      Entry.mkdir e p false true = .error () := by
  induction p with
  | nil => intro e hne _; exact absurd rfl hne
  | cons a rest ih =>
    intro e _ hlk
    cases rest with
    | nil => simp [Entry.lookup] at hlk
    | cons b q2 =>
      cases e with
      | file => simp [Entry.mkdir]
      | dir cs =>
        have hdl : (a :: b :: q2).dropLast = a :: (b :: q2).dropLast := rfl
        rw [hdl] at hlk
        simp only [Entry.mkdir]
        cases hf : findChild cs a with
        | some e0 =>
          have hlk0 : Entry.lookup e0 (b :: q2).dropLast = none := by
            simpa [Entry.lookup, hf] using hlk
          have hres := ih e0 (by simp) hlk0
          simp [hres]
        | none => simp

/-- `mkdir(parents=True, exist_ok=True)` succeeds whenever no prefix of
its target path is occupied by a regular file. -/
theorem Entry.mkdir_parents_ok (p : List String) :
    ∀ (e : Entry),
      (∀ q r, q ++ r = p → Entry.lookup e q ≠ some Entry.file) →
      ∃ e2, Entry.mkdir e p true true = .ok e2 := by
  induction p with
  | nil =>
    intro e hnf
    cases e with
    | file => exact absurd (by simp [Entry.lookup]) (hnf [] [] rfl)
    | dir cs => exact ⟨Entry.dir cs, by simp [Entry.mkdir]⟩
  | cons a rest ih =>
    intro e hnf
    cases e with
    | file => exact absurd (by simp [Entry.lookup]) (hnf [] (a :: rest) rfl)
    | dir cs =>
      simp only [Entry.mkdir]
      cases hf : findChild cs a with
      | some e0 =>
        have hnf0 : ∀ q r, q ++ r = rest →
            Entry.lookup e0 q ≠ some Entry.file := by
          intro q r hqr
          have := hnf (a :: q) r (by simp [hqr])
          simpa [Entry.lookup, hf] using this
        obtain ⟨e2, he2⟩ := ih e0 hnf0
        exact ⟨Entry.dir (setChild cs a e2), by simp [he2]⟩
      | none =>
        cases rest with
        | nil => exact ⟨Entry.dir (setChild cs a (Entry.dir [])), rfl⟩
        | cons b q2 =>
          have hnf0 : ∀ q r, q ++ r = b :: q2 →
              Entry.lookup (Entry.dir []) q ≠ some Entry.file := by
            intro q r _
            cases q with
            | nil => simp [Entry.lookup]
            | cons x xs => simp [Entry.lookup, findChild]
          obtain ⟨e2, he2⟩ := ih (Entry.dir []) hnf0
          exact ⟨Entry.dir (setChild cs a e2), by simp [he2]⟩

/-- `touch` succeeds whenever the parent of its target path is an
existing directory. -/
theorem Entry.touch_parent_ok (p : List String) :
    ∀ (e : Entry) (cs : List (String × Entry)), p ≠ [] →
      Entry.lookup e p.dropLast = some (Entry.dir cs) →
      ∃ e2, Entry.touch e p = .ok e2 := by
  induction p with
  | nil => intro e cs hne _; exact absurd rfl hne
  | cons a rest ih =>
    intro e cs _ hlk
    cases rest with
    | nil =>
      have he : e = Entry.dir cs := by simpa [Entry.lookup] using hlk
      subst he
      cases hf : findChild cs a with
      | some e0 => exact ⟨Entry.dir cs, by simp [Entry.touch, hf]⟩
      | none =>
        exact ⟨Entry.dir (setChild cs a Entry.file), by simp [Entry.touch, hf]⟩
    | cons b q2 =>
      cases e with
      | file => simp [Entry.lookup] at hlk
      | dir cs1 =>
        have hdl : (a :: b :: q2).dropLast = a :: (b :: q2).dropLast := rfl
        rw [hdl] at hlk
        cases hf : findChild cs1 a with
        | none => simp [Entry.lookup, hf] at hlk
        | some e0 =>
          have hlk0 : Entry.lookup e0 (b :: q2).dropLast =
              some (Entry.dir cs) := by
            simpa [Entry.lookup, hf] using hlk
          obtain ⟨e2, he2⟩ := ih e0 cs (by simp) hlk0
          exact ⟨Entry.dir (setChild cs1 a e2), by simp [Entry.touch, hf, he2]⟩

/-! ### Behaviour of the three convergence operations -/

/-- A path classified `ABSENT` is nonempty (the root always exists). -/
theorem absent_ne_nil (fs : Entry) (p : List String)
    (h : get_current_state fs p = State.ABSENT) : p ≠ [] := by
  intro hp
  subst hp
  rw [get_current_state_eq_absent] at h
  simp [Entry.lookup] at h

/-- When the path is already a file, `ensure_file` returns unchanged. -/
theorem ensure_file_converged (fs : Entry) (p : List String) (nested c : Bool)
    (h : get_current_state fs p = State.FILE) :
    ensure_file fs p nested c =
      .ok ⟨false, some p, some (init_diff p State.FILE State.FILE)⟩ fs := by
  simp [ensure_file, h]

/-- When the path is already a directory, `ensure_directory` returns
unchanged. -/
theorem ensure_directory_converged (fs : Entry) (p : List String)
    (nested c : Bool) (h : get_current_state fs p = State.DIRECTORY) :
    ensure_directory fs p nested c =
      .ok ⟨false, some p,
        some (init_diff p State.DIRECTORY State.DIRECTORY)⟩ fs := by
  simp [ensure_directory, h]

/-- When the path is already absent, `ensure_absent` returns unchanged. -/
theorem ensure_absent_converged (fs : Entry) (p : List String) (c : Bool)
    (h : get_current_state fs p = State.ABSENT) :
    ensure_absent fs p c =
      .ok ⟨false, some p, some (init_diff p State.ABSENT State.ABSENT)⟩ fs := by
  simp [ensure_absent, h]

/-- When the path is a file, `ensure_directory` silently returns
`changed=false`, leaving the filesystem as it is. -/
theorem ensure_directory_on_file (fs : Entry) (p : List String)
    (nested c : Bool) (h : get_current_state fs p = State.FILE) :
    ensure_directory fs p nested c =
      .ok ⟨false, some p, some (init_diff p State.DIRECTORY State.FILE)⟩ fs := by
  rw [ensure_directory]
  simp only [h]
  simp

/-- Any non-check-mode `ensure_file` call that returns a result leaves a
file at the path. -/
theorem ensure_file_ok_state (fs fs2 : Entry) (p : List String)
    (nested : Bool) (r : ModResult)
    (h : ensure_file fs p nested false = .ok r fs2) :
    get_current_state fs2 p = State.FILE := by
  rw [ensure_file] at h
  by_cases habs : get_current_state fs p = State.ABSENT
  · simp only [habs, if_pos, if_true, Bool.false_eq_true, if_false] at h
    cases hmk : Entry.mkdir fs p.dropLast nested true with
    | error u => simp [hmk] at h
    | ok fsa =>
      simp only [hmk] at h
      cases ht : Entry.touch fsa p with
      | error u => simp [ht] at h
      | ok fsb =>
        simp only [ht, Outcome.ok.injEq] at h
        obtain ⟨-, h2⟩ := h
        subst h2
        have hne : p ≠ [] := absent_ne_nil fs p habs
        have hlk : Entry.lookup fs p = none :=
          (get_current_state_eq_absent fs p).mp habs
        have hsplit : p.dropLast ++ [p.getLast hne] = p :=
          List.dropLast_append_getLast hne
        have hlka : Entry.lookup fsa p = none := by
          rw [← hsplit] at hlk ⊢
          exact Entry.mkdir_preserves_missing_child p.dropLast fs fsa
            (p.getLast hne) nested hmk hlk
        rw [get_current_state_eq_file]
        exact Entry.touch_missing p fsa fsb hlka ht
  · simp only [habs, if_false] at h
    by_cases hdir : get_current_state fs p = State.DIRECTORY
    · simp [hdir] at h
    · simp only [hdir, if_false, Outcome.ok.injEq] at h
      obtain ⟨-, h2⟩ := h
      subst h2
      cases hcur : get_current_state fs p with
      | FILE => rfl
      | DIRECTORY => exact absurd hcur hdir
      | ABSENT => exact absurd hcur habs

/-- Any non-check-mode `ensure_directory` call that returns `changed=true`
leaves a directory at the path. -/
theorem ensure_directory_changed_state (fs fs2 : Entry) (p : List String)
    (nested : Bool) (r : ModResult)
    (h : ensure_directory fs p nested false = .ok r fs2)
    (hc : r.changed = true) :
    get_current_state fs2 p = State.DIRECTORY := by
  rw [ensure_directory] at h
  by_cases habs : get_current_state fs p = State.ABSENT
  · simp only [habs, if_pos, if_true, Bool.false_eq_true, if_false] at h
    cases hmk : Entry.mkdir fs p nested true with
    | error u => simp [hmk] at h
    | ok fsa =>
      simp only [hmk, Outcome.ok.injEq] at h
      obtain ⟨-, h2⟩ := h
      subst h2
      obtain ⟨cs, hcs⟩ := Entry.mkdir_ok_dir p fs fsa nested hmk
      rw [get_current_state_eq_dir]
      exact ⟨cs, hcs⟩
  · simp only [habs, if_false, Outcome.ok.injEq] at h
    obtain ⟨h1, -⟩ := h
    rw [← h1] at hc
    simp at hc

/-- A non-check-mode `ensure_directory` call that returns a result on a
path that is not currently a file leaves a directory at the path. -/
theorem ensure_directory_ok_state (fs fs2 : Entry) (p : List String)
    (nested : Bool) (r : ModResult)
    (h : ensure_directory fs p nested false = .ok r fs2)
    (hnf : get_current_state fs p ≠ State.FILE) :
    get_current_state fs2 p = State.DIRECTORY := by
  rw [ensure_directory] at h
  by_cases habs : get_current_state fs p = State.ABSENT
  · simp only [habs, if_pos, if_true, Bool.false_eq_true, if_false] at h
    cases hmk : Entry.mkdir fs p nested true with
    | error u => simp [hmk] at h
    | ok fsa =>
      simp only [hmk, Outcome.ok.injEq] at h
      obtain ⟨-, h2⟩ := h
      subst h2
      obtain ⟨cs, hcs⟩ := Entry.mkdir_ok_dir p fs fsa nested hmk
      rw [get_current_state_eq_dir]
      exact ⟨cs, hcs⟩
  · simp only [habs, if_false, Outcome.ok.injEq] at h
    obtain ⟨-, h2⟩ := h
    subst h2
    cases hcur : get_current_state fs p with
    | FILE => exact absurd hcur hnf
    | DIRECTORY => rfl
    | ABSENT => exact absurd hcur habs

/-- Any non-check-mode `ensure_absent` call that returns a result leaves
the path absent. -/
theorem ensure_absent_ok_state (fs fs2 : Entry) (p : List String)
    (r : ModResult) (h : ensure_absent fs p false = .ok r fs2) :
    get_current_state fs2 p = State.ABSENT := by
  rw [ensure_absent] at h
  by_cases hdir : get_current_state fs p = State.DIRECTORY
  · simp only [hdir, if_pos, if_true, Bool.false_eq_true, if_false] at h
    cases hrm : Entry.rmtree fs p with
    | error u => simp [hrm] at h
    | ok fsa =>
      simp only [hrm, Outcome.ok.injEq] at h
      obtain ⟨-, h2⟩ := h
      subst h2
      rw [get_current_state_eq_absent]
      exact Entry.rmtree_removes p fs fsa hrm
  · simp only [hdir, if_false] at h
    by_cases hfil : get_current_state fs p = State.FILE
    · simp only [hfil, if_pos, if_true, Bool.false_eq_true, if_false] at h
      cases hul : Entry.unlink fs p with
      | error u => simp [hul] at h
      | ok fsa =>
        simp only [hul, Outcome.ok.injEq] at h
        obtain ⟨-, h2⟩ := h
        subst h2
        rw [get_current_state_eq_absent]
        exact Entry.unlink_removes p fs fsa hul
    · simp only [hfil, if_false, Outcome.ok.injEq] at h
      obtain ⟨-, h2⟩ := h
      subst h2
      cases hcur : get_current_state fs p with
      | FILE => exact absurd hcur hfil
      | DIRECTORY => exact absurd hcur hdir
      | ABSENT => rfl

/-! ### Dispatch helpers -/

theorem run_value_file (fs : Entry) (p : List String) (nested c : Bool) :
    run_proper_handler fs State.FILE.value p nested c =
      ensure_file fs p nested c := by
  rw [run_proper_handler, if_pos rfl]

theorem run_value_directory (fs : Entry) (p : List String) (nested c : Bool) :
    run_proper_handler fs State.DIRECTORY.value p nested c =
      ensure_directory fs p nested c := by
  rw [run_proper_handler, if_neg (by decide), if_pos rfl]

theorem run_value_absent (fs : Entry) (p : List String) (nested c : Bool) :
    run_proper_handler fs State.ABSENT.value p nested c =
      ensure_absent fs p c := by
  rw [run_proper_handler, if_neg (by decide), if_neg (by decide), if_pos rfl]

/-! ### Missing parents: failure with nested=false, success with
nested=true -/

/-- A missing parent implies a missing target. -/
theorem lookup_none_of_parent_none (fs : Entry) (p : List String)
    (hne : p ≠ []) (hmiss : Entry.lookup fs p.dropLast = none) :
    Entry.lookup fs p = none := by
  rw [← List.dropLast_append_getLast hne, Entry.lookup_append, hmiss]
  rfl

/-- With `nested=false` and a missing parent, a non-check `ensure_directory`
call aborts via `fail_json`, mutating nothing. -/
theorem ensure_directory_no_nested_fatal (fs : Entry) (p : List String)
    (hmiss : Entry.lookup fs p.dropLast = none) :
    ensure_directory fs p false false =
      .fatal ("Error, could not create directory: " ++ pathStr p ++
        ", error: OSError.") fs := by
  have hne : p ≠ [] := by
    intro h
    rw [h] at hmiss
    simp [Entry.lookup] at hmiss
  have habs : get_current_state fs p = State.ABSENT :=
    (get_current_state_eq_absent fs p).mpr
      (lookup_none_of_parent_none fs p hne hmiss)
  have hmk := Entry.mkdir_no_parents_error p fs hne hmiss
  simp [ensure_directory, habs, hmk]

/-- With `nested=false` and at least two missing trailing parent levels, a
non-check `ensure_file` call aborts via `fail_json`, mutating nothing. -/
theorem ensure_file_no_nested_fatal (fs : Entry) (p : List String)
    (hmiss2 : Entry.lookup fs p.dropLast.dropLast = none) :
    ensure_file fs p false false =
      .fatal ("Error, could not create file: " ++ pathStr p ++
        ", error: OSError.") fs := by
  have hne2 : p.dropLast ≠ [] := by
    intro h
    rw [h] at hmiss2
    simp [Entry.lookup] at hmiss2
  have hne : p ≠ [] := by
    intro h
    rw [h] at hne2
    exact hne2 rfl
  have hmiss : Entry.lookup fs p.dropLast = none :=
    lookup_none_of_parent_none fs p.dropLast hne2 hmiss2
  have habs : get_current_state fs p = State.ABSENT :=
    (get_current_state_eq_absent fs p).mpr
      (lookup_none_of_parent_none fs p hne hmiss)
  have hmk := Entry.mkdir_no_parents_error p.dropLast fs hne2 hmiss2
  simp [ensure_file, habs, hmk]

/-- With `nested=true`, an absent directory target below missing parents
(none of them occupied by a file) is created, with every path prefix
existing afterwards. -/
theorem ensure_directory_nested_ok (fs : Entry) (p : List String)
    (hnf : ∀ q r, q ++ r = p → Entry.lookup fs q ≠ some Entry.file)
    (hmiss : Entry.lookup fs p = none) :
    ∃ r fs2, ensure_directory fs p true false = .ok r fs2 ∧
      r.changed = true ∧ get_current_state fs2 p = State.DIRECTORY ∧
      ∀ q q2, q ++ q2 = p → Entry.lookup fs2 q ≠ none := by
  have habs : get_current_state fs p = State.ABSENT :=
    (get_current_state_eq_absent fs p).mpr hmiss
  obtain ⟨fs2, hmk⟩ := Entry.mkdir_parents_ok p fs hnf
  obtain ⟨cs, hcs⟩ := Entry.mkdir_ok_dir p fs fs2 true hmk
  refine ⟨⟨true, some p, some (init_diff p State.DIRECTORY State.ABSENT)⟩,
    fs2, ?_, rfl, ?_, ?_⟩
  · simp [ensure_directory, habs, hmk]
  · rw [get_current_state_eq_dir]
    exact ⟨cs, hcs⟩
  · intro q q2 hq hcontra
    rw [← hq, Entry.lookup_append, hcontra] at hcs
    simp at hcs

/-- With `nested=true`, an absent file target below missing parents (none
of them occupied by a file) is created, with every path prefix existing
afterwards. -/
theorem ensure_file_nested_ok (fs : Entry) (p : List String)
    (hnf : ∀ q r, q ++ r = p → Entry.lookup fs q ≠ some Entry.file)
    (hmiss : Entry.lookup fs p = none) :
    ∃ r fs2, ensure_file fs p true false = .ok r fs2 ∧
      r.changed = true ∧ get_current_state fs2 p = State.FILE ∧
      ∀ q q2, q ++ q2 = p → Entry.lookup fs2 q ≠ none := by
  have habs : get_current_state fs p = State.ABSENT :=
    (get_current_state_eq_absent fs p).mpr hmiss
  have hne : p ≠ [] := absent_ne_nil fs p habs
  have hnfp : ∀ q r, q ++ r = p.dropLast →
      Entry.lookup fs q ≠ some Entry.file := by
    intro q r hqr
    refine hnf q (r ++ [p.getLast hne]) ?_
    rw [← List.append_assoc, hqr, List.dropLast_append_getLast hne]
  obtain ⟨fsa, hmk⟩ := Entry.mkdir_parents_ok p.dropLast fs hnfp
  obtain ⟨cs, hcs⟩ := Entry.mkdir_ok_dir p.dropLast fs fsa true hmk
  have hlka : Entry.lookup fsa p = none := by
    rw [← List.dropLast_append_getLast hne] at hmiss ⊢
    exact Entry.mkdir_preserves_missing_child p.dropLast fs fsa
      (p.getLast hne) true hmk hmiss
  obtain ⟨fsb, ht⟩ := Entry.touch_parent_ok p fsa cs hne hcs
  have hfile : Entry.lookup fsb p = some Entry.file :=
    Entry.touch_missing p fsa fsb hlka ht
  refine ⟨⟨true, some p, some (init_diff p State.FILE State.ABSENT)⟩,
    fsb, ?_, rfl, ?_, ?_⟩
  · simp [ensure_file, habs, hmk, ht]
  · rw [get_current_state_eq_file]
    exact hfile
  · intro q q2 hq hcontra
    rw [← hq, Entry.lookup_append, hcontra] at hfile
    simp at hfile

/-! ### The claims -/

/-- C1: for every desired state and every current on-disk state, a
non-dry-run reconciliation call that returns a result leaves the path
classified by `get_current_state` as the desired state, except in the
DIRECTORY-desired/FILE-current case. -/
theorem convergence_correct (st : State) (fs fs2 : Entry)
    (p : List String) (nested : Bool) (r : ModResult)
    (h : run_proper_handler fs st.value p nested false = .ok r fs2)
    (hexc : ¬(st = State.DIRECTORY ∧ get_current_state fs p = State.FILE)) :
    get_current_state fs2 p = st := by
  cases st with
  | FILE =>
    rw [run_value_file] at h
    exact ensure_file_ok_state fs fs2 p nested r h
  | DIRECTORY =>
    rw [run_value_directory] at h
    exact ensure_directory_ok_state fs fs2 p nested r h
      (fun hf => hexc ⟨rfl, hf⟩)
  | ABSENT =>
    rw [run_value_absent] at h
    exact ensure_absent_ok_state fs fs2 p r h

/-- C2 counterexample: path `a/f` with parent segment `a` missing, desired
state `file`, `nested=false`, not in check mode.  The claim says this
fails fatally with nothing created; the code instead returns a result
with `changed=true`, creating both the parent directory and the file. -/
theorem nested_gating_counterexample :
    get_current_state (Entry.dir []) ["a"] = State.ABSENT ∧
    run_proper_handler (Entry.dir []) "file" ["a", "f"] false false =
      Outcome.ok
        ⟨true, some ["a", "f"],
          some (init_diff ["a", "f"] State.FILE State.ABSENT)⟩
        (Entry.dir [("a", Entry.dir [("f", Entry.file)])]) :=
  ⟨rfl, rfl⟩

/-- C2 (amended): on a target path none of whose prefixes is occupied by a
regular file and whose parent is missing: a non-dry-run `ensure_directory`
with `nested=false` fails fatally with nothing created, `ensure_file` with
`nested=false` fails fatally when additionally the grandparent is missing
(with exactly one missing parent level it instead succeeds, creating that
parent — see the counterexample), and the identical requests with
`nested=true` succeed, creating all missing segments. -/
theorem nested_gating_amended (fs : Entry) (p : List String)
    (hnf : ∀ q ∈ p.inits,
      ((Entry.lookup fs q).getD (Entry.dir [])).isFile = false)
    (hmiss : Entry.lookup fs p.dropLast = none) :
    (ensure_directory fs p false false =
      .fatal ("Error, could not create directory: " ++ pathStr p ++
        ", error: OSError.") fs) ∧
    (Entry.lookup fs p.dropLast.dropLast = none →
      ensure_file fs p false false =
        .fatal ("Error, could not create file: " ++ pathStr p ++
          ", error: OSError.") fs) ∧
    (∃ r fs2, ensure_directory fs p true false = .ok r fs2 ∧
      r.changed = true ∧ get_current_state fs2 p = State.DIRECTORY ∧
      ∀ q q2, q ++ q2 = p → Entry.lookup fs2 q ≠ none) ∧
    (∃ r fs2, ensure_file fs p true false = .ok r fs2 ∧
      r.changed = true ∧ get_current_state fs2 p = State.FILE ∧
      ∀ q q2, q ++ q2 = p → Entry.lookup fs2 q ≠ none) := by
  have hne : p ≠ [] := by
    intro h
    rw [h] at hmiss
    simp [Entry.lookup] at hmiss
  have hnf2 : ∀ q r, q ++ r = p → Entry.lookup fs q ≠ some Entry.file := by
    intro q r hqr hlq
    have hq : q ∈ p.inits := by
      rw [List.mem_inits]
      exact ⟨r, hqr⟩
    have := hnf q hq
    rw [hlq] at this
    simp [Entry.isFile] at this
  have hmissp : Entry.lookup fs p = none :=
    lookup_none_of_parent_none fs p hne hmiss
  exact ⟨ensure_directory_no_nested_fatal fs p hmiss,
    fun hmiss2 => ensure_file_no_nested_fatal fs p hmiss2,
    ensure_directory_nested_ok fs p hnf2 hmissp,
    ensure_file_nested_ok fs p hnf2 hmissp⟩

/-- C3: if a first non-dry-run call succeeds with `changed=true`, a second
immediate call with the same request succeeds with `changed=false` and
leaves the filesystem untouched. -/
theorem idempotent_second_call (st : State) (fs fs1 : Entry)
    (p : List String) (nested : Bool) (r1 : ModResult)
    (h1 : run_proper_handler fs st.value p nested false = .ok r1 fs1)
    (hc : r1.changed = true) :
    ∃ r2, run_proper_handler fs1 st.value p nested false = .ok r2 fs1 ∧
      r2.changed = false := by
  cases st with
  | FILE =>
    rw [run_value_file] at h1
    have hst := ensure_file_ok_state fs fs1 p nested r1 h1
    refine ⟨⟨false, some p, some (init_diff p State.FILE State.FILE)⟩, ?_, rfl⟩
    rw [run_value_file]
    exact ensure_file_converged fs1 p nested false hst
  | DIRECTORY =>
    rw [run_value_directory] at h1
    have hst := ensure_directory_changed_state fs fs1 p nested r1 h1 hc
    refine ⟨⟨false, some p,
      some (init_diff p State.DIRECTORY State.DIRECTORY)⟩, ?_, rfl⟩
    rw [run_value_directory]
    exact ensure_directory_converged fs1 p nested false hst
  | ABSENT =>
    rw [run_value_absent] at h1
    have hst := ensure_absent_ok_state fs fs1 p r1 h1
    refine ⟨⟨false, some p, some (init_diff p State.ABSENT State.ABSENT)⟩,
      ?_, rfl⟩
    rw [run_value_absent]
    exact ensure_absent_converged fs1 p false hst

/-- C4: for every request and every current on-disk state, a check-mode
call never mutates the filesystem — also when it aborts via `fail_json` —
and any returned result reports `changed=true` exactly on the branches
that would mutate in normal mode, regardless of `nested` and of whether
the mutation would actually succeed. -/
theorem dry_run_pure_and_optimistic (st : State) (fs : Entry)
    (p : List String) (nested : Bool) :
    (run_proper_handler fs st.value p nested true).fsAfter = fs ∧
    ∀ r fs2, run_proper_handler fs st.value p nested true = .ok r fs2 →
      (r.changed = true ↔
        ((st = State.FILE ∧ get_current_state fs p = State.ABSENT) ∨
         (st = State.DIRECTORY ∧ get_current_state fs p = State.ABSENT) ∨
         (st = State.ABSENT ∧ get_current_state fs p ≠ State.ABSENT))) := by
  cases st with
  | FILE =>
    rw [run_value_file, ensure_file]
    cases hcur : get_current_state fs p with
    | ABSENT =>
      simp only [reduceIte, reduceCtorEq]
      refine ⟨rfl, ?_⟩
      intro r fs2 h
      simp only [get_check_mode_result, Outcome.ok.injEq] at h
      obtain ⟨h1, -⟩ := h
      subst h1
      simp
    | DIRECTORY =>
      simp only [reduceIte, reduceCtorEq]
      refine ⟨rfl, ?_⟩
      intro r fs2 h
      simp at h
    | FILE =>
      simp only [reduceIte, reduceCtorEq]
      refine ⟨rfl, ?_⟩
      intro r fs2 h
      simp only [Outcome.ok.injEq] at h
      obtain ⟨h1, -⟩ := h
      subst h1
      simp
  | DIRECTORY =>
    rw [run_value_directory, ensure_directory]
    cases hcur : get_current_state fs p with
    | ABSENT =>
      simp only [reduceIte, reduceCtorEq]
      refine ⟨rfl, ?_⟩
      intro r fs2 h
      simp only [get_check_mode_result, Outcome.ok.injEq] at h
      obtain ⟨h1, -⟩ := h
      subst h1
      simp
    | DIRECTORY =>
      simp only [reduceIte, reduceCtorEq]
      refine ⟨rfl, ?_⟩
      intro r fs2 h
      simp only [Outcome.ok.injEq] at h
      obtain ⟨h1, -⟩ := h
      subst h1
      simp
    | FILE =>
      simp only [reduceIte, reduceCtorEq]
      refine ⟨rfl, ?_⟩
      intro r fs2 h
      simp only [Outcome.ok.injEq] at h
      obtain ⟨h1, -⟩ := h
      subst h1
      simp
  | ABSENT =>
    rw [run_value_absent, ensure_absent]
    cases hcur : get_current_state fs p with
    | ABSENT =>
      simp only [reduceIte, reduceCtorEq]
      refine ⟨rfl, ?_⟩
      intro r fs2 h
      simp only [Outcome.ok.injEq] at h
      obtain ⟨h1, -⟩ := h
      subst h1
      simp
    | DIRECTORY =>
      simp only [reduceIte, reduceCtorEq]
      refine ⟨rfl, ?_⟩
      intro r fs2 h
      simp only [get_check_mode_result, Outcome.ok.injEq] at h
      obtain ⟨h1, -⟩ := h
      subst h1
      simp
    | FILE =>
      simp only [reduceIte, reduceCtorEq]
      refine ⟨rfl, ?_⟩
      intro r fs2 h
      simp only [get_check_mode_result, Outcome.ok.injEq] at h
      obtain ⟨h1, -⟩ := h
      subst h1
      simp

/-- C5: when the current state is DIRECTORY, `ensure_file` aborts via
`fail_json` with the configuration-conflict message, mutating nothing (in
check mode as well as in normal mode). -/
theorem ensure_file_on_directory_fatal (fs : Entry) (p : List String)
    (nested c : Bool) (h : get_current_state fs p = State.DIRECTORY) :
    ensure_file fs p nested c =
      .fatal ("Error, could not create file: " ++ pathStr p ++
        ", path is directory.") fs := by
  simp [ensure_file, h]

/-- C6: when the current state is FILE, a non-dry-run `ensure_directory`
returns `changed=false` and mutates nothing — it does not raise the
configuration-conflict error that `ensure_file` raises in the symmetric
case. -/
theorem ensure_directory_on_file_no_change (fs : Entry) (p : List String)
    (nested : Bool) (h : get_current_state fs p = State.FILE) :
    ensure_directory fs p nested false =
      .ok ⟨false, some p, some (init_diff p State.DIRECTORY State.FILE)⟩
        fs :=
  ensure_directory_on_file fs p nested false h

/-- C7: the built diff always has `before.path = after.path = path`; when
current equals desired neither side carries a `state` field, otherwise
`before.state` is the current and `after.state` the desired state; the
two `state` fields are present together or not at all. -/
theorem diff_contract (p : List String) (next_state current_state : State) :
    (init_diff p next_state current_state).before.path = p ∧
    (init_diff p next_state current_state).after.path = p ∧
    (init_diff p next_state current_state =
      if current_state = next_state then ⟨⟨p, none⟩, ⟨p, none⟩⟩
      else ⟨⟨p, some current_state.value⟩, ⟨p, some next_state.value⟩⟩) ∧
    ((init_diff p next_state current_state).before.state.isSome ↔
      (init_diff p next_state current_state).after.state.isSome) := by
  by_cases h : current_state = next_state <;> simp [init_diff, h]

/-- C8: the dispatcher routes each of the three state strings to exactly
its operation and returns that operation's outcome unchanged; any other
string executes none of them and yields the default `changed=false`
result. -/
theorem dispatcher_routing (fs : Entry) (p : List String) (nested c : Bool) :
    run_proper_handler fs "file" p nested c = ensure_file fs p nested c ∧
    run_proper_handler fs "directory" p nested c =
      ensure_directory fs p nested c ∧
    run_proper_handler fs "absent" p nested c = ensure_absent fs p c ∧
    ∀ s : String, s ≠ "file" → s ≠ "directory" → s ≠ "absent" →
      run_proper_handler fs s p nested c = .ok ⟨false, none, none⟩ fs := by
  refine ⟨?_, ?_, ?_, ?_⟩
  · rw [run_proper_handler,
      if_pos (show ("file" : String) = State.FILE.value from rfl)]
  · rw [run_proper_handler,
      if_neg (show ¬(("directory" : String) = State.FILE.value) from
        by decide),
      if_pos (show ("directory" : String) = State.DIRECTORY.value from rfl)]
  · rw [run_proper_handler,
      if_neg (show ¬(("absent" : String) = State.FILE.value) from by decide),
      if_neg (show ¬(("absent" : String) = State.DIRECTORY.value) from
        by decide),
      if_pos (show ("absent" : String) = State.ABSENT.value from rfl)]
  · intro s h1 h2 h3
    rw [run_proper_handler,
      if_neg (show ¬(s = State.FILE.value) from h1),
      if_neg (show ¬(s = State.DIRECTORY.value) from h2),
      if_neg (show ¬(s = State.ABSENT.value) from h3)]

/-- C9: when the current state is FILE, `ensure_directory` returns
`changed=false` while the diff still shows `before.state="file"` and
`after.state="directory"`: `changed=false` does not imply an empty
diff. -/
theorem changed_false_diff_still_shows (fs : Entry) (p : List String)
    (nested : Bool) (h : get_current_state fs p = State.FILE) :
    ∃ d : Diff,
      ensure_directory fs p nested false = .ok ⟨false, some p, some d⟩ fs ∧
      d.before.state = some "file" ∧ d.after.state = some "directory" := by
  refine ⟨init_diff p State.DIRECTORY State.FILE,
    ensure_directory_on_file fs p nested false h, ?_, ?_⟩ <;>
    simp [init_diff, State.value]

/-- C10: a request with desired state `absent` behaves identically
whatever the `nested` flag: the dispatcher never passes it to
`ensure_absent`, which does not consult it. -/
theorem ensure_absent_ignores_nested (fs : Entry) (p : List String)
    (n1 n2 c : Bool) :
    run_proper_handler fs "absent" p n1 c =
      run_proper_handler fs "absent" p n2 c := rfl

/-! ### Concrete witnesses for the claims with hypotheses -/

theorem convergence_correct_witness :
    get_current_state (Entry.dir [("f", Entry.file)]) ["f"] = State.FILE :=
  convergence_correct State.FILE (Entry.dir [])
    (Entry.dir [("f", Entry.file)]) ["f"] false
    ⟨true, some ["f"], some (init_diff ["f"] State.FILE State.ABSENT)⟩
    rfl (by decide)

theorem nested_gating_amended_witness :
    (ensure_directory (Entry.dir []) ["a", "b", "c"] false false =
      .fatal ("Error, could not create directory: " ++
        pathStr ["a", "b", "c"] ++ ", error: OSError.") (Entry.dir [])) ∧
    (Entry.lookup (Entry.dir [])
        (["a", "b", "c"] : List String).dropLast.dropLast = none →
      ensure_file (Entry.dir []) ["a", "b", "c"] false false =
        .fatal ("Error, could not create file: " ++
          pathStr ["a", "b", "c"] ++ ", error: OSError.") (Entry.dir [])) ∧
    (∃ r fs2,
      ensure_directory (Entry.dir []) ["a", "b", "c"] true false =
        .ok r fs2 ∧ r.changed = true ∧
      get_current_state fs2 ["a", "b", "c"] = State.DIRECTORY ∧
      ∀ q q2, q ++ q2 = ["a", "b", "c"] → Entry.lookup fs2 q ≠ none) ∧
    (∃ r fs2,
      ensure_file (Entry.dir []) ["a", "b", "c"] true false = .ok r fs2 ∧
      r.changed = true ∧
      get_current_state fs2 ["a", "b", "c"] = State.FILE ∧
      ∀ q q2, q ++ q2 = ["a", "b", "c"] → Entry.lookup fs2 q ≠ none) := by
  exact nested_gating_amended (Entry.dir []) ["a", "b", "c"]
    (by decide) rfl

theorem idempotent_second_call_witness :
    ∃ r2, run_proper_handler (Entry.dir [("f", Entry.file)])
        State.FILE.value ["f"] false false =
        .ok r2 (Entry.dir [("f", Entry.file)]) ∧ r2.changed = false :=
  idempotent_second_call State.FILE (Entry.dir [])
    (Entry.dir [("f", Entry.file)]) ["f"] false
    ⟨true, some ["f"], some (init_diff ["f"] State.FILE State.ABSENT)⟩
    rfl rfl

theorem dry_run_pure_and_optimistic_witness :
    (run_proper_handler (Entry.dir [("f", Entry.file)]) State.ABSENT.value
        ["f"] false true).fsAfter = Entry.dir [("f", Entry.file)] ∧
    ((⟨true, some ["f"],
        some (init_diff ["f"] State.ABSENT State.FILE)⟩ :
          ModResult).changed = true ↔
      ((State.ABSENT = State.FILE ∧
        get_current_state (Entry.dir [("f", Entry.file)]) ["f"] =
          State.ABSENT) ∨
       (State.ABSENT = State.DIRECTORY ∧
        get_current_state (Entry.dir [("f", Entry.file)]) ["f"] =
          State.ABSENT) ∨
       (State.ABSENT = State.ABSENT ∧
        get_current_state (Entry.dir [("f", Entry.file)]) ["f"] ≠
          State.ABSENT))) :=
  ⟨(dry_run_pure_and_optimistic State.ABSENT (Entry.dir [("f", Entry.file)])
      ["f"] false).1,
   (dry_run_pure_and_optimistic State.ABSENT (Entry.dir [("f", Entry.file)])
      ["f"] false).2
     ⟨true, some ["f"], some (init_diff ["f"] State.ABSENT State.FILE)⟩
     (Entry.dir [("f", Entry.file)]) rfl⟩

theorem ensure_file_on_directory_fatal_witness :
    ensure_file (Entry.dir [("d", Entry.dir [])]) ["d"] false false =
      .fatal ("Error, could not create file: " ++ pathStr ["d"] ++
        ", path is directory.") (Entry.dir [("d", Entry.dir [])]) :=
  ensure_file_on_directory_fatal (Entry.dir [("d", Entry.dir [])]) ["d"]
    false false rfl

theorem ensure_directory_on_file_no_change_witness :
    ensure_directory (Entry.dir [("x", Entry.file)]) ["x"] false false =
      .ok ⟨false, some ["x"],
        some (init_diff ["x"] State.DIRECTORY State.FILE)⟩
        (Entry.dir [("x", Entry.file)]) :=
  ensure_directory_on_file_no_change (Entry.dir [("x", Entry.file)]) ["x"]
    false rfl

theorem dispatcher_routing_witness :
    run_proper_handler (Entry.dir []) "bogus" [] false false =
      .ok ⟨false, none, none⟩ (Entry.dir []) :=
  (dispatcher_routing (Entry.dir []) [] false false).2.2.2 "bogus"
    (by decide) (by decide) (by decide)

theorem changed_false_diff_still_shows_witness :
    ∃ d : Diff,
      ensure_directory (Entry.dir [("x", Entry.file)]) ["x"] false false =
        .ok ⟨false, some ["x"], some d⟩ (Entry.dir [("x", Entry.file)]) ∧
      d.before.state = some "file" ∧ d.after.state = some "directory" :=
  changed_false_diff_still_shows (Entry.dir [("x", Entry.file)]) ["x"]
    false rfl

end FileDir
